import Mathlib

/-!
Verification of the cgroup CPU limit resolver in `main.go` of schmichael/goplay.

The Go program resolves the effective CPU limit imposed by Linux cgroups:
it detects the cgroup version, looks up the own-process cgroup path in
`/proc/self/cgroup`, walks the cgroup directory hierarchy from the leaf up to
the controller mount root, computes a per-level quota sample, and reduces the
samples with a running minimum.

Shallow embedding choices:
* Filesystem paths are lists of path components (`List String`); the
  filesystem root is `[]`, `filepath.Dir` is `List.dropLast`, and
  `filepath.Join` of a mount root with a relative path is list append.
  Dot-segment cleaning of paths is not modelled.
* File contents are `List Char` (Go strings are handled byte/rune-wise by the
  parsing helpers the program uses).
* The filesystem is a finite association list of regular files plus a list of
  extra directories; `os.ReadFile` is a lookup, `os.Stat` succeeds on either.
* Go `float64` samples are modelled by `Flt`: an exact rational (`Flt.fin`)
  or positive infinity (`Flt.inf`).  The value `float64(quota)/float64(period)`
  is modelled by the exact rational `Rat.divInt quota period`; the rounding
  performed by IEEE-754 binary64 arithmetic is deliberately not modelled.
* The unbounded `for` loop of `walkHierarchy` is modelled by the structurally
  recursive `walkLoopF` with fuel `startPath.length + 1`; the lemma
  `walkLoopF_fuel_stable` proves that any fuel above the path length gives the
  same result, i.e. the loop terminates within that many iterations.
-/

set_option autoImplicit false

deriving instance DecidableEq for Except

namespace Goplay

/-- Code points accepted by Go `unicode.IsSpace` (the separator set used by
`strings.Fields` and `strings.TrimSpace`). -/
def goSpaceCodes : List Nat :=
  [0x9, 0xA, 0xB, 0xC, 0xD, 0x20, 0x85, 0xA0, 0x1680,
   0x2000, 0x2001, 0x2002, 0x2003, 0x2004, 0x2005, 0x2006, 0x2007, 0x2008,
   0x2009, 0x200A, 0x2028, 0x2029, 0x202F, 0x205F, 0x3000]

/-- Whether a character is whitespace in the sense of Go `unicode.IsSpace`. -/
def isGoSpace (c : Char) : Bool :=
  goSpaceCodes.contains c.toNat

/-- Go `strings.TrimSpace`: drop leading and trailing whitespace. -/
def trimSpace (s : List Char) : List Char :=
  ((s.dropWhile isGoSpace).reverse.dropWhile isGoSpace).reverse

/-- Accumulator pass of `fields`: split a character list at whitespace runs. -/
def fieldsAux : List Char → List Char → List (List Char)
  | [], [] => []
  | [], acc => [acc.reverse]
  | c :: rest, acc =>
    if isGoSpace c then
      match acc with
      | [] => fieldsAux rest []
      | _ :: _ => acc.reverse :: fieldsAux rest []
    else fieldsAux rest (c :: acc)

/-- Go `strings.Fields`: the maximal runs of non-whitespace characters. -/
def fields (s : List Char) : List (List Char) :=
  fieldsAux s []

/-- Accumulator pass of `splitOnChar`. -/
def splitOnCharAux (sep : Char) : List Char → List Char → List (List Char)
  | [], acc => [acc.reverse]
  | c :: rest, acc =>
    if c = sep then acc.reverse :: splitOnCharAux sep rest []
    else splitOnCharAux sep rest (c :: acc)

/-- Go `strings.Split` with a one-character separator. -/
def splitOnChar (sep : Char) (s : List Char) : List (List Char) :=
  splitOnCharAux sep s []

/-- Drop a single trailing carriage return, as `bufio.ScanLines` does. -/
def stripCR (l : List Char) : List Char :=
  match l.getLast? with
  | some c => if c = '\r' then l.dropLast else l
  | none => l

/-- Tokens produced by a `bufio.Scanner` with the default line splitter:
newline-separated lines, without a final empty token after a trailing
newline, each with a trailing carriage return removed. -/
def scanLines (content : List Char) : List (List Char) :=
  let raw := splitOnChar '\n' content
  let raw :=
    match raw.getLast? with
    | some [] => raw.dropLast
    | _ => raw
  raw.map stripCR

/-- Whether `needle` is an initial segment of `haystack`. -/
def chSeqLe : List Char → List Char → Bool
  | [], _ => true
  | _ :: _, [] => false
  | a :: as, b :: bs => a == b && chSeqLe as bs

/-- Go `strings.Contains`: `needle` occurs as a contiguous subsequence. -/
def hasSub (needle : List Char) (haystack : List Char) : Bool :=
  match haystack with
  | [] => needle.isEmpty
  | _ :: rest => chSeqLe needle haystack || hasSub needle rest

/-- Numeric value of a decimal digit character, if it is one. -/
def digitVal? (c : Char) : Option Nat :=
  if '0'.toNat ≤ c.toNat ∧ c.toNat ≤ '9'.toNat then some (c.toNat - '0'.toNat)
  else none

/-- Accumulator pass of `digitsToNat?`. -/
def digitsToNatAux : List Char → Nat → Option Nat
  | [], acc => some acc
  | c :: rest, acc =>
    match digitVal? c with
    | some d => digitsToNatAux rest (acc * 10 + d)
    | none => none

/-- Value of a nonempty all-digit character list, in base ten. -/
def digitsToNat? : List Char → Option Nat
  | [] => none
  | l => digitsToNatAux l 0

/-- Go `strconv.ParseInt(s, 10, 64)`: an optional sign followed by at least
one decimal digit, with the int64 range check; `none` models a parse error. -/
def parseInt64? (s : List Char) : Option Int :=
  match s with
  | '+' :: rest =>
    (digitsToNat? rest).bind fun n =>
      if n ≤ 2 ^ 63 - 1 then some (n : Int) else none
  | '-' :: rest =>
    (digitsToNat? rest).bind fun n =>
      if n ≤ 2 ^ 63 then some (-(n : Int)) else none
  | _ =>
    (digitsToNat? s).bind fun n =>
      if n ≤ 2 ^ 63 - 1 then some (n : Int) else none

/-- Components of a slash-delimited path, empty components dropped. -/
def splitPath (p : List Char) : List String :=
  ((splitOnChar '/' p).filter (fun comp => !comp.isEmpty)).map
    (fun comp => String.mk comp)

/-- QuotaSample value: `float64` of the Go program, restricted to the values
the resolver produces — an exact rational or positive infinity. -/
inductive Flt where
  | fin (q : ℚ)
  | inf
deriving DecidableEq

/-- Go `math.Min` on the values the walk feeds it (no NaN arises). -/
def Flt.min : Flt → Flt → Flt
  | .inf, b => b
  | .fin a, .inf => .fin a
  | .fin a, .fin b => .fin (Min.min a b)

/-- Go `math.Max` on `Flt` values. -/
def Flt.max : Flt → Flt → Flt
  | .inf, _ => .inf
  | .fin _, .inf => .inf
  | .fin a, .fin b => .fin (Max.max a b)

/-- Go `math.Ceil` on `Flt` values. -/
def Flt.ceil : Flt → Flt
  | .fin q => .fin (⌈q⌉ : ℚ)
  | .inf => .inf

/-- Read-only view of the cgroup pseudo-filesystem: regular files with their
contents, plus directories that exist without being files. -/
structure FS where
  files : List (List String × List Char)
  dirs : List (List String)

/-- Go `os.ReadFile`: content of a regular file, `none` when absent. -/
def FS.read (fs : FS) (p : List String) : Option (List Char) :=
  fs.files.lookup p

/-- Go `os.Stat` succeeding: the path is a known file or directory. -/
def FS.stat (fs : FS) (p : List String) : Bool :=
  (fs.read p).isSome || fs.dirs.contains p

/-- State visible to the resolver: the filesystem and the content of
`/proc/self/cgroup` (`none` when the file cannot be opened). -/
structure Sys where
  fs : FS
  procSelfCgroup : Option (List Char)

/-- Constant `cgroupV1CPUPath = "/sys/fs/cgroup/cpu"` from the source. -/
def cgroupV1CPUPath : List String := ["sys", "fs", "cgroup", "cpu"]

/-- Constant `cgroupV2Path = "/sys/fs/cgroup"` from the source. -/
def cgroupV2Path : List String := ["sys", "fs", "cgroup"]

/-- Constant `cgroupV1UnlimitedQuota = -1` from the source. -/
def cgroupV1UnlimitedQuota : Int := -1

/-- Function `readIntFromFile` of the source: read a file and parse its
trimmed content as an int64. -/
def readIntFromFile (fs : FS) (filePath : List String) : Except String Int :=
  match fs.read filePath with
  | none => Except.error "could not read file"
  | some content =>
    match parseInt64? (trimSpace content) with
    | none => Except.error "could not parse integer"
    | some val => Except.ok val

/-- Function `calculateV1CPUQuota` of the source: read
`cpu.cfs_quota_us`; a quota of -1 is unlimited (the period file is not read
in that case); otherwise read `cpu.cfs_period_us`, reject a zero period and
return the ratio. -/
def calculateV1CPUQuota (fs : FS) (path : List String) : Except String Flt :=
  match readIntFromFile fs (path ++ ["cpu.cfs_quota_us"]) with
  | Except.error e => Except.error e
  | Except.ok quota =>
    if quota = cgroupV1UnlimitedQuota then Except.ok Flt.inf
    else
      match readIntFromFile fs (path ++ ["cpu.cfs_period_us"]) with
      | Except.error e => Except.error e
      | Except.ok period =>
        if period = 0 then Except.error "cpu.cfs_period_us is zero"
        else Except.ok (Flt.fin (Rat.divInt quota period))

/-- Function `calculateV2CPUQuota` of the source: read `cpu.max`, require
exactly two whitespace-separated tokens, treat quota token `max` as
unlimited, otherwise parse both tokens, reject a zero period and return the
ratio. -/
def calculateV2CPUQuota (fs : FS) (path : List String) : Except String Flt :=
  match fs.read (path ++ ["cpu.max"]) with
  | none => Except.error "could not read cpu.max"
  | some content =>
    match fields content with
    | [t1, t2] =>
      if t1 = "max".data then Except.ok Flt.inf
      else
        match parseInt64? t1 with
        | none => Except.error "could not parse quota in cpu.max"
        | some quota =>
          match parseInt64? t2 with
          | none => Except.error "could not parse period in cpu.max"
          | some period =>
            if period = 0 then Except.error "period in cpu.max is zero"
            else Except.ok (Flt.fin (Rat.divInt quota period))
    | _ => Except.error "invalid format in cpu.max"

/-- One iteration body of the `walkHierarchy` loop: attempt the per-level
calculation, fold a successful sample into the running minimum, keep the
accumulator when the level fails. -/
def stepCalc (calcFunc : List String → Except String Flt) (acc : Flt)
    (p : List String) : Flt :=
  match calcFunc p with
  | Except.ok limit => Flt.min acc limit
  | Except.error _ => acc

/-- Loop of `walkHierarchy`, fuelled: at the current directory run the
iteration body, stop at the mount root or the filesystem root, otherwise
recurse on the parent directory.  Fuel `startPath.length + 1` always
suffices (`walkLoopF_fuel_stable`). -/
def walkLoopF (calcFunc : List String → Except String Flt)
    (rootPath : List String) : Nat → List String → Flt → Flt
  | 0, _, minLimit => minLimit
  | fuel + 1, currentPath, minLimit =>
    if currentPath = rootPath ∨ currentPath = [] then
      stepCalc calcFunc minLimit currentPath
    else
      walkLoopF calcFunc rootPath fuel currentPath.dropLast
        (stepCalc calcFunc minLimit currentPath)

/-- Function `walkHierarchy` of the source: run the loop from the start path
with the running minimum at positive infinity; if the minimum is still
infinite at the end, return 0. -/
def walkHierarchy (startPath : List String)
    (calcFunc : List String → Except String Flt) (rootPath : List String) : Flt :=
  let minLimit := walkLoopF calcFunc rootPath (startPath.length + 1) startPath Flt.inf
  if minLimit = Flt.inf then Flt.fin 0 else minLimit

/-- Fuelled list of the directories the walk visits, in visiting order. -/
def walkChainF (rootPath : List String) : Nat → List String → List (List String)
  | 0, _ => []
  | fuel + 1, currentPath =>
    if currentPath = rootPath ∨ currentPath = [] then [currentPath]
    else currentPath :: walkChainF rootPath fuel currentPath.dropLast

/-- Directories visited by `walkHierarchy` from a start path. -/
def walkChain (rootPath startPath : List String) : List (List String) :=
  walkChainF rootPath (startPath.length + 1) startPath

/-- Matching test of one `/proc/self/cgroup` line, from the loop body of
`getProcessCgroupPath`: split at colons, require exactly three parts, match
a nonempty controller by substring containment in the controller list and an
empty controller by an empty controller-list field. -/
def procLineMatch (controller : List Char) (line : List Char) :
    Option (List Char) :=
  match splitOnChar ':' line with
  | [_, ctrls, path] =>
    if (controller ≠ [] ∧ hasSub controller ctrls = true) ∨
        (controller = [] ∧ ctrls = []) then some path
    else none
  | _ => none

/-- Error message of `getProcessCgroupPath` when no line matches. -/
def pathNotFound (controller : List Char) : String :=
  "cgroup path for controller " ++ String.mk controller ++
    " not found in /proc/self/cgroup"

/-- Scanner loop of `getProcessCgroupPath`: first matching line wins. -/
def procLinesLookup (controller : List Char) :
    List (List Char) → Except String (List Char)
  | [] => Except.error (pathNotFound controller)
  | line :: rest =>
    match procLineMatch controller line with
    | some path => Except.ok path
    | none => procLinesLookup controller rest

/-- Function `getProcessCgroupPath` of the source: parse
`/proc/self/cgroup` and return the path field of the first matching line. -/
def getProcessCgroupPath (sys : Sys) (controller : List Char) :
    Except String (List Char) :=
  match sys.procSelfCgroup with
  | none => Except.error "could not open /proc/self/cgroup"
  | some content => procLinesLookup controller (scanLines content)

/-- Function `getCgroupV1Limit` of the source. -/
def getCgroupV1Limit (sys : Sys) : Except String Flt :=
  match getProcessCgroupPath sys "cpu".data with
  | Except.error e => Except.error ("failed to get cgroup v1 path: " ++ e)
  | Except.ok cgroupPath =>
    Except.ok (walkHierarchy (cgroupV1CPUPath ++ splitPath cgroupPath)
      (calculateV1CPUQuota sys.fs) cgroupV1CPUPath)

/-- Function `getCgroupV2Limit` of the source. -/
def getCgroupV2Limit (sys : Sys) : Except String Flt :=
  match getProcessCgroupPath sys [] with
  | Except.error e => Except.error ("failed to get cgroup v2 path: " ++ e)
  | Except.ok cgroupPath =>
    Except.ok (walkHierarchy (cgroupV2Path ++ splitPath cgroupPath)
      (calculateV2CPUQuota sys.fs) cgroupV2Path)

/-- Function `getEffectiveCPULimit` of the source: probe for the v2 marker
file first, then for the v1 controller directory, else report no limit. -/
def getEffectiveCPULimit (sys : Sys) : Except String Flt :=
  if sys.fs.stat (cgroupV2Path ++ ["cgroup.controllers"]) then getCgroupV2Limit sys
  else if sys.fs.stat cgroupV1CPUPath then getCgroupV1Limit sys
  else Except.ok (Flt.fin 0)

/-- Function `cgroupLimit` of the source: resolve the effective limit; a
zero effective limit is the not-in-cgroup sentinel `(0, 0, nil)`; otherwise
the adjusted limit is `max(2, ceil(effective))`. -/
def cgroupLimit (sys : Sys) : Except String (Flt × Flt) :=
  match getEffectiveCPULimit sys with
  | Except.error e => Except.error e
  | Except.ok effectiveLimit =>
    if effectiveLimit = Flt.fin 0 then Except.ok (Flt.fin 0, Flt.fin 0)
    else
      Except.ok (effectiveLimit,
        Flt.max (Flt.fin 2) (Flt.ceil effectiveLimit))

/-! Concrete states used to exercise the definitions on closed inputs. -/

/-- System with no cgroup filesystem at all. -/
def sysEmpty : Sys :=
  { fs := { files := [], dirs := [] }, procSelfCgroup := none }

/-- Cgroup v2 system whose leaf level caps CPU at one half of a core and
whose root level is unlimited. -/
def sysHalf : Sys :=
  { fs := { files := [ (["sys", "fs", "cgroup", "cgroup.controllers"], "cpu".data),
                       (["sys", "fs", "cgroup", "a", "cpu.max"], "100000 200000".data),
                       (["sys", "fs", "cgroup", "cpu.max"], "max".data) ],
            dirs := [] },
    procSelfCgroup := some "0::/a\n".data }

/-- Cgroup v1 system whose leaf level has a genuine zero quota with a
positive period, and no quota files at the mount root. -/
def sysZeroQuota : Sys :=
  { fs := { files := [ (["sys", "fs", "cgroup", "cpu", "a", "cpu.cfs_quota_us"], "0".data),
                       (["sys", "fs", "cgroup", "cpu", "a", "cpu.cfs_period_us"], "100000".data) ],
            dirs := [cgroupV1CPUPath] },
    procSelfCgroup := some "3:cpu,cpuacct:/a\n".data }

/-- System where both the v2 marker file and the v1 controller directory
exist at the same time. -/
def sysBoth : Sys :=
  { fs := { files := [ (["sys", "fs", "cgroup", "cgroup.controllers"], "cpu".data),
                       (["sys", "fs", "cgroup", "cpu.max"], "300000 100000".data) ],
            dirs := [cgroupV1CPUPath] },
    procSelfCgroup := some "0::/\n".data }

/-- Membership file with a v1 cpu line and a v2 unified line. -/
def sysProcDemo : Sys :=
  { fs := { files := [], dirs := [] },
    procSelfCgroup := some "4:cpu,cpuacct:/p1\n0::/p2\n".data }

/-- Membership file with no line matching the cpu controller. -/
def sysProcNoMatch : Sys :=
  { fs := { files := [], dirs := [] },
    procSelfCgroup := some "7:memory:/m\n".data }

/-- Level with quota -1 and a malformed sibling period file. -/
def fsV1Unlimited : FS :=
  { files := [ (["g", "cpu.cfs_quota_us"], "-1".data),
               (["g", "cpu.cfs_period_us"], "not a number".data) ],
    dirs := [] }

/-- Three v2 levels: an unlimited one, a finite one, a malformed one. -/
def fsV2Demo : FS :=
  { files := [ (["c1", "cpu.max"], "max 100000".data),
               (["c2", "cpu.max"], "200000 100000".data),
               (["c3", "cpu.max"], "banana".data) ],
    dirs := [] }

/-- Per-level calculation of the C1 scenario: the root has sample 4.0, the
child level has no quota files. -/
def calcScenario : List String → Except String Flt :=
  fun p => if p = ["r"] then Except.ok (Flt.fin 4) else Except.error "no quota files"

/-- Per-level calculation succeeding with +infinity everywhere. -/
def calcAllInf : List String → Except String Flt :=
  fun _ => Except.ok Flt.inf

/-- Per-level calculation failing everywhere. -/
def calcAllErr : List String → Except String Flt :=
  fun _ => Except.error "no limit at this level"

/-! Helper lemmas relating the fuelled loop to a fold over the visited
chain, and showing that the fuel bound is large enough. -/

/-- The fuelled loop is the fold of the iteration body over the visited
chain, for any sufficient fuel. -/
theorem walkLoopF_eq_foldl (calcFunc : List String → Except String Flt)
    (rootPath : List String) :
    ∀ (fuel : Nat) (cur : List String) (m : Flt), cur.length < fuel →
      walkLoopF calcFunc rootPath fuel cur m =
        (walkChainF rootPath fuel cur).foldl (stepCalc calcFunc) m := by
  intro fuel
  induction fuel with
  | zero => intro cur m h; omega
  | succ fuel ih =>
    intro cur m h
    by_cases hs : cur = rootPath ∨ cur = []
    · simp [walkLoopF, walkChainF, hs]
    · have hne : cur ≠ [] := fun hc => hs (Or.inr hc)
      have hlen : cur.dropLast.length < fuel := by
        have h1 : cur.dropLast.length = cur.length - 1 := List.length_dropLast cur
        have h2 : 0 < cur.length := List.length_pos.mpr hne
        omega
      simp only [walkLoopF, walkChainF, if_neg hs, List.foldl_cons]
      exact ih cur.dropLast _ hlen

/-- Folding the iteration body is folding the minimum over the successful
samples only. -/
theorem foldl_stepCalc_eq_min (calcFunc : List String → Except String Flt) :
    ∀ (chain : List (List String)) (m : Flt),
      chain.foldl (stepCalc calcFunc) m =
        (chain.filterMap fun p => (calcFunc p).toOption).foldl Flt.min m := by
  intro chain
  induction chain with
  | nil => intro m; rfl
  | cons p rest ih =>
    intro m
    cases hc : calcFunc p with
    | ok limit =>
      simp [List.foldl_cons, stepCalc, hc, Except.toOption, ih]
    | error e =>
      simp [List.foldl_cons, stepCalc, hc, Except.toOption, ih]

/-- The visited chain does not depend on the fuel once the fuel exceeds the
length of the start path. -/
theorem walkChainF_fuel_stable (rootPath : List String) :
    ∀ (fuel fuel' : Nat) (cur : List String), cur.length < fuel →
      cur.length < fuel' →
      walkChainF rootPath fuel cur = walkChainF rootPath fuel' cur := by
  intro fuel
  induction fuel with
  | zero => intro fuel' cur h; omega
  | succ fuel ih =>
    intro fuel' cur h h'
    cases fuel' with
    | zero => omega
    | succ fuel' =>
      by_cases hs : cur = rootPath ∨ cur = []
      · simp [walkChainF, hs]
      · have hne : cur ≠ [] := fun hc => hs (Or.inr hc)
        have hlen : cur.dropLast.length = cur.length - 1 := List.length_dropLast cur
        have h2 : 0 < cur.length := List.length_pos.mpr hne
        simp only [walkChainF, if_neg hs]
        rw [ih fuel' cur.dropLast (by omega) (by omega)]

/-- The loop result does not depend on the fuel once the fuel exceeds the
length of the start path: the walk has terminated by then. -/
theorem walkLoopF_fuel_stable (calcFunc : List String → Except String Flt)
    (rootPath : List String) (fuel fuel' : Nat) (cur : List String) (m : Flt)
    (h : cur.length < fuel) (h' : cur.length < fuel') :
    walkLoopF calcFunc rootPath fuel cur m =
      walkLoopF calcFunc rootPath fuel' cur m := by
  rw [walkLoopF_eq_foldl calcFunc rootPath fuel cur m h,
    walkLoopF_eq_foldl calcFunc rootPath fuel' cur m h',
    walkChainF_fuel_stable rootPath fuel fuel' cur h h']

/-- Closed form of `walkHierarchy`: the fold of the minimum over the
successful samples of the visited chain, with an infinite fold mapped to
the zero sentinel. -/
theorem walkHierarchy_eq_min_fold (startPath : List String)
    (calcFunc : List String → Except String Flt) (rootPath : List String) :
    walkHierarchy startPath calcFunc rootPath =
      (if ((walkChain rootPath startPath).filterMap
            (fun p => (calcFunc p).toOption)).foldl Flt.min Flt.inf = Flt.inf
       then Flt.fin 0
       else ((walkChain rootPath startPath).filterMap
            (fun p => (calcFunc p).toOption)).foldl Flt.min Flt.inf) := by
  unfold walkHierarchy walkChain
  rw [walkLoopF_eq_foldl calcFunc rootPath (startPath.length + 1) startPath Flt.inf
      (Nat.lt_succ_self _),
    foldl_stepCalc_eq_min]

/-- A resolved effective limit of zero makes `cgroupLimit` return the
sentinel pair. -/
theorem cgroupLimit_of_zero (sys : Sys)
    (h : getEffectiveCPULimit sys = Except.ok (Flt.fin 0)) :
    cgroupLimit sys = Except.ok (Flt.fin 0, Flt.fin 0) := by
  unfold cgroupLimit
  rw [h]
  simp

/-- The scanner loop of `getProcessCgroupPath` returns the first match. -/
theorem procLinesLookup_eq_findSome (controller : List Char) :
    ∀ ls : List (List Char),
      procLinesLookup controller ls =
        (match ls.findSome? (procLineMatch controller) with
         | some p => Except.ok p
         | none => Except.error (pathNotFound controller)) := by
  intro ls
  induction ls with
  | nil => rfl
  | cons line rest ih =>
    cases hm : procLineMatch controller line with
    | some p => simp [procLinesLookup, hm, List.findSome?_cons]
    | none => simp [procLinesLookup, hm, List.findSome?_cons, ih]

/-! Claims. -/

/-- C1 (amended): the value returned by `walkHierarchy` equals the minimum
over all levels at which the per-level quota calculation succeeds whenever
that minimum is finite; levels whose calculation fails contribute nothing to
the minimum; when the minimum is +infinity (no successful level, or every
successful level unlimited) the function returns 0 instead.  In the claimed
scenario — root-level sample 4.0, child level with no quota files — the
result is 4.0, not 0 and not an error. -/
theorem walkHierarchy_min_of_successes :
    (∀ (calcFunc : List String → Except String Flt) (rootPath startPath : List String),
        walkHierarchy startPath calcFunc rootPath =
          (if ((walkChain rootPath startPath).filterMap
                (fun p => (calcFunc p).toOption)).foldl Flt.min Flt.inf = Flt.inf
           then Flt.fin 0
           else ((walkChain rootPath startPath).filterMap
                (fun p => (calcFunc p).toOption)).foldl Flt.min Flt.inf)) ∧
    walkHierarchy ["r", "c"] calcScenario ["r"] = Flt.fin 4 :=
  ⟨fun calcFunc rootPath startPath =>
      walkHierarchy_eq_min_fold startPath calcFunc rootPath,
    by decide⟩

/-- C1 counterexample: on a single-level hierarchy whose only calculation
succeeds with sample +infinity, `walkHierarchy` returns 0 although the
minimum over the successful samples is +infinity, so the returned value is
not literally that minimum. -/
theorem walkHierarchy_min_claim_cex :
    walkHierarchy ["r"] calcAllInf ["r"] = Flt.fin 0 ∧
    ((walkChain ["r"] ["r"]).filterMap
        (fun p => (calcAllInf p).toOption)).foldl Flt.min Flt.inf = Flt.inf ∧
    Flt.fin 0 ≠ Flt.inf := by decide

/-- C2: whenever the resolver computes a strictly positive effective limit
q, `cgroupLimit` returns it together with the adjusted limit
max(2, ceil(q)); in particular 0.5 adjusts to 2, 1.0 to 2, 2.3 to 3 and
5.0 to 5. -/
theorem cgroupLimit_adjusted :
    (∀ (sys : Sys) (q : ℚ), 0 < q →
        getEffectiveCPULimit sys = Except.ok (Flt.fin q) →
        cgroupLimit sys =
          Except.ok (Flt.fin q, Flt.max (Flt.fin 2) (Flt.ceil (Flt.fin q)))) ∧
    Flt.max (Flt.fin 2) (Flt.ceil (Flt.fin (mkRat 1 2))) = Flt.fin 2 ∧
    Flt.max (Flt.fin 2) (Flt.ceil (Flt.fin 1)) = Flt.fin 2 ∧
    Flt.max (Flt.fin 2) (Flt.ceil (Flt.fin (mkRat 23 10))) = Flt.fin 3 ∧
    Flt.max (Flt.fin 2) (Flt.ceil (Flt.fin 5)) = Flt.fin 5 := by
  refine ⟨?_, by decide, by decide, by decide, by decide⟩
  intro sys q hq hget
  have hne : Flt.fin q ≠ Flt.fin 0 := by
    simp only [ne_eq, Flt.fin.injEq]
    exact ne_of_gt hq
  simp only [cgroupLimit, hget]
  rw [if_neg hne]

/-- C2 witness: a concrete v2 hierarchy whose effective limit is one half,
adjusted to 2. -/
theorem cgroupLimit_adjusted_witness :
    cgroupLimit sysHalf = Except.ok (Flt.fin (mkRat 1 2), Flt.fin 2) := by
  have h := cgroupLimit_adjusted.1 sysHalf (mkRat 1 2) (by decide) (by decide)
  rw [h]
  decide

/-- C3: with no cgroup filesystem detected, or with no traversed level
producing a successful sample (the running minimum stays +infinity, making
the resolved effective limit zero), `cgroupLimit` returns the sentinel
`(0, 0)` with no error. -/
theorem cgroupLimit_sentinel :
    (∀ sys : Sys,
        sys.fs.stat (cgroupV2Path ++ ["cgroup.controllers"]) = false →
        sys.fs.stat cgroupV1CPUPath = false →
        cgroupLimit sys = Except.ok (Flt.fin 0, Flt.fin 0)) ∧
    (∀ (calcFunc : List String → Except String Flt) (rootPath startPath : List String),
        (∀ p ∈ walkChain rootPath startPath, ∃ e, calcFunc p = Except.error e) →
        walkHierarchy startPath calcFunc rootPath = Flt.fin 0) ∧
    (∀ sys : Sys, getEffectiveCPULimit sys = Except.ok (Flt.fin 0) →
        cgroupLimit sys = Except.ok (Flt.fin 0, Flt.fin 0)) := by
  refine ⟨?_, ?_, fun sys h => cgroupLimit_of_zero sys h⟩
  · intro sys h2 h1
    have hget : getEffectiveCPULimit sys = Except.ok (Flt.fin 0) := by
      simp [getEffectiveCPULimit, h1, h2]
    exact cgroupLimit_of_zero sys hget
  · intro calcFunc rootPath startPath hall
    rw [walkHierarchy_eq_min_fold]
    have hnil : (walkChain rootPath startPath).filterMap
        (fun p => (calcFunc p).toOption) = [] := by
      rw [List.filterMap_eq_nil_iff]
      intro p hp
      obtain ⟨e, he⟩ := hall p hp
      simp [he, Except.toOption]
    rw [hnil]
    simp

/-- C3 witness: a system with no cgroup filesystem resolves to the
sentinel. -/
theorem cgroupLimit_sentinel_witness :
    cgroupLimit sysEmpty = Except.ok (Flt.fin 0, Flt.fin 0) :=
  cgroupLimit_sentinel.1 sysEmpty (by decide) (by decide)

/-- C4: whenever the `cpu.cfs_quota_us` file of a v1 level parses to
exactly -1, `calculateV1CPUQuota` returns +infinity without error,
whatever the sibling `cpu.cfs_period_us` file holds (it is not read in
this case). -/
theorem calculateV1CPUQuota_unlimited (fs : FS) (path : List String)
    (h : readIntFromFile fs (path ++ ["cpu.cfs_quota_us"]) = Except.ok (-1)) :
    calculateV1CPUQuota fs path = Except.ok Flt.inf := by
  simp [calculateV1CPUQuota, h, cgroupV1UnlimitedQuota]

/-- C4 witness: quota -1 next to a malformed period file still yields
+infinity, not an error. -/
theorem calculateV1CPUQuota_unlimited_witness :
    readIntFromFile fsV1Unlimited (["g"] ++ ["cpu.cfs_quota_us"]) = Except.ok (-1) ∧
    calculateV1CPUQuota fsV1Unlimited ["g"] = Except.ok Flt.inf :=
  ⟨by decide, calculateV1CPUQuota_unlimited fsV1Unlimited ["g"] (by decide)⟩

/-- C5: `calculateV2CPUQuota` reads the single `cpu.max` file of the level
and splits it into whitespace-separated tokens; a quota token `max` yields
+infinity; otherwise, with exactly two integer tokens and a nonzero period,
the sample is quota divided by period; with a token count other than two, a
non-parseable token, or a zero period the level yields an error, which makes
it contribute no sample; and an erroring level leaves the walk to continue
on the parent with the running minimum unchanged (never a fatal error, as
`walkHierarchy` is total). -/
theorem calculateV2CPUQuota_spec :
    (∀ (fs : FS) (path : List String) (content t2 : List Char),
        fs.read (path ++ ["cpu.max"]) = some content →
        fields content = ["max".data, t2] →
        calculateV2CPUQuota fs path = Except.ok Flt.inf) ∧
    (∀ (fs : FS) (path : List String) (content t1 t2 : List Char) (q p : ℤ),
        fs.read (path ++ ["cpu.max"]) = some content →
        fields content = [t1, t2] → t1 ≠ "max".data →
        parseInt64? t1 = some q → parseInt64? t2 = some p → p ≠ 0 →
        calculateV2CPUQuota fs path = Except.ok (Flt.fin ((q : ℚ) / (p : ℚ)))) ∧
    (∀ (fs : FS) (path : List String) (content : List Char),
        fs.read (path ++ ["cpu.max"]) = some content →
        (fields content).length ≠ 2 →
        ∃ e, calculateV2CPUQuota fs path = Except.error e) ∧
    (∀ (fs : FS) (path : List String) (content t1 t2 : List Char),
        fs.read (path ++ ["cpu.max"]) = some content →
        fields content = [t1, t2] → t1 ≠ "max".data →
        (parseInt64? t1 = none ∨ parseInt64? t2 = none ∨ parseInt64? t2 = some 0) →
        ∃ e, calculateV2CPUQuota fs path = Except.error e) ∧
    (∀ (fs : FS) (cur rootPath : List String) (m : Flt) (fuel : Nat),
        (∃ e, calculateV2CPUQuota fs cur = Except.error e) →
        ¬(cur = rootPath ∨ cur = []) →
        walkLoopF (calculateV2CPUQuota fs) rootPath (fuel + 1) cur m =
          walkLoopF (calculateV2CPUQuota fs) rootPath fuel cur.dropLast m) := by
  refine ⟨?_, ?_, ?_, ?_, ?_⟩
  · intro fs path content t2 hread hfields
    simp [calculateV2CPUQuota, hread, hfields]
  · intro fs path content t1 t2 q p hread hfields hmax hq hp hp0
    simp only [calculateV2CPUQuota, hread, hfields]
    rw [if_neg hmax]
    simp only [hq, hp]
    rw [if_neg hp0, Rat.divInt_eq_div]
  · intro fs path content hread hlen
    rcases hf : fields content with _ | ⟨a, _ | ⟨b, _ | ⟨c, rest⟩⟩⟩
    · exact ⟨"invalid format in cpu.max", by simp [calculateV2CPUQuota, hread, hf]⟩
    · exact ⟨"invalid format in cpu.max", by simp [calculateV2CPUQuota, hread, hf]⟩
    · exact absurd (by simp [hf]) hlen
    · exact ⟨"invalid format in cpu.max", by simp [calculateV2CPUQuota, hread, hf]⟩
  · intro fs path content t1 t2 hread hfields hmax hbad
    simp only [calculateV2CPUQuota, hread, hfields]
    rw [if_neg hmax]
    rcases hbad with h1 | h2 | h20
    · exact ⟨"could not parse quota in cpu.max", by simp [h1]⟩
    · cases hq : parseInt64? t1 with
      | none => exact ⟨"could not parse quota in cpu.max", by simp [hq]⟩
      | some q => exact ⟨"could not parse period in cpu.max", by simp [hq, h2]⟩
    · cases hq : parseInt64? t1 with
      | none => exact ⟨"could not parse quota in cpu.max", by simp [hq]⟩
      | some q => exact ⟨"period in cpu.max is zero", by simp [hq, h20]⟩
  · intro fs cur rootPath m fuel ⟨e, he⟩ hs
    simp [walkLoopF, stepCalc, he, hs]

/-- C5 witness: the three demo levels exercise the unlimited, finite and
malformed cases, and the walk steps over the malformed level. -/
theorem calculateV2CPUQuota_spec_witness :
    calculateV2CPUQuota fsV2Demo ["c1"] = Except.ok Flt.inf ∧
    calculateV2CPUQuota fsV2Demo ["c2"] =
      Except.ok (Flt.fin ((200000 : ℚ) / (100000 : ℚ))) ∧
    (∃ e, calculateV2CPUQuota fsV2Demo ["c3"] = Except.error e) ∧
    walkLoopF (calculateV2CPUQuota fsV2Demo) [] 2 ["c3"] Flt.inf =
      walkLoopF (calculateV2CPUQuota fsV2Demo) [] 1 [] Flt.inf :=
  ⟨calculateV2CPUQuota_spec.1 fsV2Demo ["c1"] "max 100000".data "100000".data
      (by decide) (by decide),
    calculateV2CPUQuota_spec.2.1 fsV2Demo ["c2"] "200000 100000".data
      "200000".data "100000".data 200000 100000
      (by decide) (by decide) (by decide) (by decide) (by decide) (by decide),
    calculateV2CPUQuota_spec.2.2.1 fsV2Demo ["c3"] "banana".data
      (by decide) (by decide),
    calculateV2CPUQuota_spec.2.2.2.2 fsV2Demo ["c3"] [] Flt.inf 1
      ⟨"invalid format in cpu.max", by decide⟩ (by decide)⟩

/-- C6: when the v2 marker file is present, version detection always takes
the v2 path, and the v2 path never looks at directory-only entries such as
the v1 controller directory, so a simultaneously present v1 directory
cannot change the outcome. -/
theorem getEffectiveCPULimit_prefers_v2 :
    (∀ sys : Sys,
        sys.fs.stat (cgroupV2Path ++ ["cgroup.controllers"]) = true →
        getEffectiveCPULimit sys = getCgroupV2Limit sys) ∧
    (∀ (files : List (List String × List Char)) (d1 d2 : List (List String))
        (oc : Option (List Char)),
        getCgroupV2Limit { fs := { files := files, dirs := d1 }, procSelfCgroup := oc } =
          getCgroupV2Limit { fs := { files := files, dirs := d2 }, procSelfCgroup := oc }) := by
  constructor
  · intro sys h
    simp [getEffectiveCPULimit, h]
  · intro files d1 d2 oc
    rfl

/-- C6 witness: a system with both the v2 marker file and the v1 controller
directory takes the v2 path. -/
theorem getEffectiveCPULimit_prefers_v2_witness :
    sysBoth.fs.stat (cgroupV2Path ++ ["cgroup.controllers"]) = true ∧
    sysBoth.fs.stat cgroupV1CPUPath = true ∧
    getEffectiveCPULimit sysBoth = getCgroupV2Limit sysBoth :=
  ⟨by decide, by decide, getEffectiveCPULimit_prefers_v2.1 sysBoth (by decide)⟩

/-- C7: on any membership file content, `getProcessCgroupPath` returns the
path field of the first line matching the requested controller — substring
containment of the controller name in the controller-list field for v1, an
empty controller-list field for v2 — and a lookup error when no line
matches; the demo contents exercise the v1 line, the v2 line and the
no-match error. -/
theorem getProcessCgroupPath_spec :
    (∀ (fs : FS) (content controller : List Char),
        getProcessCgroupPath { fs := fs, procSelfCgroup := some content } controller =
          (match (scanLines content).findSome? (procLineMatch controller) with
           | some p => Except.ok p
           | none => Except.error (pathNotFound controller))) ∧
    getProcessCgroupPath sysProcDemo "cpu".data = Except.ok "/p1".data ∧
    getProcessCgroupPath sysProcDemo [] = Except.ok "/p2".data ∧
    getProcessCgroupPath sysProcNoMatch "cpu".data =
      Except.error (pathNotFound "cpu".data) :=
  ⟨fun _ content controller => procLinesLookup_eq_findSome controller (scanLines content),
    by decide, by decide, by decide⟩

/-- C9: the hierarchy walk terminates — any fuel beyond the length of the
start path gives the same loop result, so the loop converges within
`length + 1` iterations; the visited chain stops immediately at the mount
root and at the filesystem root, and otherwise each iteration moves to
the parent directory. -/
theorem walkHierarchy_terminates (calcFunc : List String → Except String Flt)
    (rootPath startPath : List String) (m : Flt) (fuel : Nat)
    (h : startPath.length < fuel) :
    walkLoopF calcFunc rootPath fuel startPath m =
      walkLoopF calcFunc rootPath (startPath.length + 1) startPath m ∧
    walkChain rootPath rootPath = [rootPath] ∧
    walkChain rootPath [] = [[]] ∧
    (startPath ≠ rootPath → startPath ≠ [] →
      walkChain rootPath startPath =
        startPath :: walkChain rootPath startPath.dropLast) := by
  refine ⟨walkLoopF_fuel_stable calcFunc rootPath fuel (startPath.length + 1)
      startPath m h (Nat.lt_succ_self _), ?_, ?_, ?_⟩
  · simp [walkChain, walkChainF]
  · simp [walkChain, walkChainF]
  · intro h1 h2
    have hs : ¬(startPath = rootPath ∨ startPath = []) := by
      rintro (hc | hc)
      · exact h1 hc
      · exact h2 hc
    have hpos : 0 < startPath.length := List.length_pos.mpr h2
    unfold walkChain
    have hstep : walkChainF rootPath (startPath.length + 1) startPath =
        startPath :: walkChainF rootPath startPath.length startPath.dropLast := by
      simp only [walkChainF, if_neg hs]
    rw [hstep]
    congr 1
    exact walkChainF_fuel_stable rootPath startPath.length
      (startPath.dropLast.length + 1) startPath.dropLast
      (by have := List.length_dropLast startPath; omega)
      (Nat.lt_succ_self _)

/-- C9 witness: a concrete two-component start path with surplus fuel. -/
theorem walkHierarchy_terminates_witness :
    (walkLoopF calcAllErr ["r"] 10 ["r", "a"] Flt.inf =
        walkLoopF calcAllErr ["r"] (["r", "a"].length + 1) ["r", "a"] Flt.inf ∧
      walkChain ["r"] ["r"] = [["r"]] ∧
      walkChain ["r"] [] = [[]] ∧
      (["r", "a"] ≠ ["r"] → ["r", "a"] ≠ ([] : List String) →
        walkChain ["r"] ["r", "a"] =
          ["r", "a"] :: walkChain ["r"] (["r", "a"] : List String).dropLast)) :=
  walkHierarchy_terminates calcAllErr ["r"] ["r", "a"] Flt.inf 10 (by decide)

/-- C10: an effective limit that resolves to exactly zero — as with a level
whose quota file holds 0 over a positive period — makes `cgroupLimit`
return `(0, 0)` with no error, the same sentinel produced when no cgroup
limit is present at all, so the two situations are indistinguishable at the
public interface. -/
theorem zero_quota_indistinguishable :
    (∀ sys : Sys, getEffectiveCPULimit sys = Except.ok (Flt.fin 0) →
        cgroupLimit sys = Except.ok (Flt.fin 0, Flt.fin 0)) ∧
    getEffectiveCPULimit sysZeroQuota = Except.ok (Flt.fin 0) ∧
    cgroupLimit sysZeroQuota = cgroupLimit sysEmpty :=
  ⟨fun sys h => cgroupLimit_of_zero sys h, by decide, by decide⟩

/-- C10 witness: the zero-quota system yields the sentinel pair. -/
theorem zero_quota_indistinguishable_witness :
    cgroupLimit sysZeroQuota = Except.ok (Flt.fin 0, Flt.fin 0) :=
  zero_quota_indistinguishable.1 sysZeroQuota (by decide)

end Goplay
